import Mathlib

/-!
Shallow embedding of the run loop, snapshotting, tick scheduling and
disk-image loading logic of an Apple II emulator (source files
`src/js/apple2.ts`, `src/js/ui/apple2.ts`, `src/js/formats/po.js`),
together with theorems settling the specification's claims about them.

Collaborator modules that the three files import but that are not part of
the sources at hand (the CPU core `cpu6502`, `formats/format_utils`, the
`types` module) are modelled from the specification where a claim needs
them; each such definition carries a doc comment starting with
"Modelled from the spec:".
-/

namespace Apple2JS

/-- JavaScript truthiness of a `number | null` value: `null` and `0` are
falsy, every other number is truthy. -/
def jsTruthy : Option Nat → Bool
  | none => false
  | some n => n != 0

/-- Modelled from the spec: the CPU register/cycle snapshot (`CpuState`
of `src/js/cpu6502`, which is not among the sources): "A, X, Y (byte),
SP (byte, implicit page $01), PC (word), status flags, cumulative cycle
counter". -/
structure CpuState where
  a : Nat
  x : Nat
  y : Nat
  s : Nat
  sp : Nat
  pc : Nat
  cycles : Nat
deriving DecidableEq, Repr

/-- Modelled from the spec: the CPU core of `src/js/cpu6502` (not among
the sources), reduced to what `apple2.ts` touches in `getState` and
`setState`: "`getState()/setState()` — snapshot/restore register file and
cycle counter". -/
structure CPU6502 where
  state : CpuState
deriving DecidableEq, Repr

/-- `cpu.getState()`: snapshot the register file and cycle counter. -/
def CPU6502.getState (c : CPU6502) : CpuState := c.state

/-- `cpu.setState(st)`: restore the register file and cycle counter. -/
def CPU6502.setState (_c : CPU6502) (st : CpuState) : CPU6502 := ⟨st⟩

/-- Run statistics, `src/js/apple2.ts` lines 49-52, both starting at 0. -/
structure Stats where
  frames : Nat
  renderedFrames : Nat
deriving DecidableEq, Repr

/-- The snapshot type of `src/js/apple2.ts` lines 21-23:
`interface State { cpu: CpuState }` — it has exactly one field. -/
structure State where
  cpu : CpuState
deriving DecidableEq, Repr

/-- The `Apple2` class state (`src/js/apple2.ts`).  The collaborator
objects (`mmu`, `io`, the video pages, the disk card) are constructed
from modules that are not among the sources; `apple2.ts` never reads
their internals inside `getState`, `setState`, `run` or `stop`, so their
states are carried opaquely as plain numbers / byte lists here. -/
structure Apple2 where
  paused : Bool
  runTimer : Option Nat
  runAnimationFrame : Option Nat
  cpu : CPU6502
  mmuLatches : Nat
  ioLatches : Nat
  ramBanks : List Nat
  diskDrives : Nat
  multiScreen : Bool
  stats : Stats
deriving DecidableEq, Repr

/-- `Apple2.getState`, `src/js/apple2.ts` lines 167-173: the snapshot is
built from the CPU snapshot alone. -/
def Apple2.getState (a : Apple2) : State :=
  { cpu := a.cpu.getState }

/-- `Apple2.setState`, `src/js/apple2.ts` lines 175-177: restores only
the CPU snapshot. -/
def Apple2.setState (a : Apple2) (st : State) : Apple2 :=
  { a with cpu := a.cpu.setState st.cpu }

/-- The fixed tick interval in milliseconds: `let interval = 30`,
`src/js/apple2.ts` line 97. -/
def interval : Nat := 30

/-- Per-tick inputs of `runFn` that come from the host clock and from the
collaborator objects: `Date.now()`, `io.getKHz()`, `io.annunciator(0)`,
and the changed-pixel results of `io.blit()` / `vm.blit()`
(`src/js/apple2.ts` lines 100-140). -/
structure TickEnv where
  now : Nat
  kHz : Nat
  ann0 : Bool
  ioBlit : Bool
  vmBlit : Bool
deriving DecidableEq, Repr

/-- Which blit calls one tick performs, in order. -/
inductive BlitCall where
  | vmBlitCall
  | ioBlitCall
deriving DecidableEq, Repr

/-- The observable effects of one run-loop tick: the cycle budget handed
to `cpu.stepCycles`, the blit calls made, the new `last` timestamp and
the new statistics. -/
structure TickResult where
  budget : Nat
  blits : List BlitCall
  last : Nat
  stats : Stats
deriving DecidableEq, Repr

/-- One tick of the run loop (`runFn`, `src/js/apple2.ts` lines 100-144)
on the non-debug path (`DEBUG` is the constant `false`, line 28): the
elapsed wall-clock time times the current kHz setting is clamped to
`kHz * interval` and handed to `cpu.stepCycles`; depending on
annunciator 0 the auxiliary or the main screen is blitted and
`renderedFrames` is incremented when the consulted blit reported a
change; `frames` is always incremented.  `mmu.resetVB()` (line 127) only
touches the MMU collaborator and has no effect on any quantity here. -/
def runFn (multiScreen : Bool) (env : TickEnv) (last : Nat) (stats : Stats) : TickResult :=
  let kHz := env.kHz
  let now := env.now
  let step := (now - last) * kHz
  let stepMax := kHz * interval
  let step' := if step > stepMax then stepMax else step
  let blits :=
    if env.ann0 then
      (if multiScreen then [BlitCall.vmBlitCall, BlitCall.ioBlitCall]
       else [BlitCall.ioBlitCall])
    else [BlitCall.vmBlitCall]
  let renderedFrames :=
    if env.ann0 then
      (if env.ioBlit then stats.renderedFrames + 1 else stats.renderedFrames)
    else
      (if env.vmBlit then stats.renderedFrames + 1 else stats.renderedFrames)
  { budget := step'
    blits := blits
    last := now
    stats := { frames := stats.frames + 1, renderedFrames := renderedFrames } }

/-- Iterated run-loop ticks, threading `last` and the statistics. -/
def runTicks (multiScreen : Bool) (envs : List TickEnv) (last : Nat) (stats : Stats) : Nat × Stats :=
  match envs with
  | [] => (last, stats)
  | e :: rest =>
    let r := runFn multiScreen e last stats
    runTicks multiScreen rest r.last r.stats

/-- The host environment `run()` consults: whether
`requestAnimationFrame` exists, and the handle the host scheduler hands
back for the newly scheduled tick. -/
structure HostEnv where
  hasRAF : Bool
  freshId : Nat
deriving DecidableEq, Repr

/-- `clearInterval(h)` / `cancelAnimationFrame(h)`: remove the handle
from the host's pending-tick list. -/
def cancelId (pending : List Nat) (h : Nat) : List Nat :=
  pending.filter (fun x => x != h)

/-- `Apple2.stop`, `src/js/apple2.ts` lines 156-165, paired with the
host's pending-tick list: cancel `runTimer` and `runAnimationFrame` when
truthy, then null both handles. -/
def Apple2.stop (a : Apple2) (pending : List Nat) : Apple2 × List Nat :=
  let p1 := if jsTruthy a.runTimer then cancelId pending (a.runTimer.getD 0) else pending
  let p2 := if jsTruthy a.runAnimationFrame then cancelId p1 (a.runAnimationFrame.getD 0) else p1
  ({ a with runTimer := none, runAnimationFrame := none }, p2)

/-- `Apple2.run`, `src/js/apple2.ts` lines 92-154, restricted to its
scheduling effect: return early when a handle is truthy, otherwise
schedule one tick source via `requestAnimationFrame` when available and
`window.setInterval` otherwise, storing the returned handle. -/
def Apple2.run (a : Apple2) (env : HostEnv) (pending : List Nat) : Apple2 × List Nat :=
  if jsTruthy a.runTimer || jsTruthy a.runAnimationFrame then
    (a, pending)
  else if env.hasRAF then
    ({ a with runAnimationFrame := some env.freshId }, pending ++ [env.freshId])
  else
    ({ a with runTimer := some env.freshId }, pending ++ [env.freshId])

/-- A scheduling handle as browsers return them: absent, or a nonzero
id (`setInterval` and `requestAnimationFrame` hand out positive ids). -/
def goodHandle : Option Nat → Bool
  | none => true
  | some n => n != 0

/-- Modelled from the spec: the ProDOS physical-to-logical sector
interleave table `PO` of `src/js/formats/format_utils` (not among the
sources); the spec: "pick the logical sector via the DOS-3.3 or ProDOS
interleave". -/
def PO : List Nat :=
  [0x0, 0x8, 0x1, 0x9, 0x2, 0xa, 0x3, 0xb,
   0x4, 0xc, 0x5, 0xd, 0x6, 0xe, 0x7, 0xf]

/-- JavaScript `x || d` on a possibly-undefined number: `undefined` and
`0` fall through to the default. -/
def jsOr : Option Nat → Nat → Nat
  | none, d => d
  | some 0, d => d
  | some n, _ => n

/-- The options record taken by the `ProDOS` loader
(`src/js/formats/po.js` line 21): `{ data, name, rawData, volume,
readOnly }`, with `volume` possibly undefined. -/
structure DiskOptions where
  data : Option (List (List (List Nat)))
  rawData : Option (List Nat)
  name : String
  volume : Option Nat
  readOnly : Bool

/-- The `Disk` record built by the loader (`src/js/formats/po.js`
lines 22-30). -/
structure Disk where
  format : String
  name : String
  volume : Nat
  tracks : List (List Nat)
  readOnly : Bool
  trackMap : Option (List Nat)
  rawTracks : Option (List Nat)

/-- The inner sector loop of the `ProDOS` loader (`src/js/formats/po.js`
lines 33-46): starting from the empty track, for each physical sector
0..15 look up the ProDOS logical sector, slice 256 bytes at
`(16 * physical_track + prodos_sector) * 256` out of `rawData` (or index
into the nested `data` array), and append the nibblized sector.  The
nibblizer `explodeSector16` lives in `format_utils` (not among the
sources) and is taken as a parameter `es`; note the loader passes it the
raw, un-defaulted `volume` option. -/
def buildTrack (es : Option Nat → Nat → Nat → List Nat → List Nat)
    (options : DiskOptions) (physical_track : Nat) : List Nat :=
  (List.range 16).foldl (fun track physical_sector =>
    let prodos_sector := PO.getD physical_sector 0
    let sector :=
      match options.rawData with
      | some raw => (raw.drop ((16 * physical_track + prodos_sector) * 256)).take 256
      | none => ((options.data.getD []).getD physical_track []).getD prodos_sector []
    track ++ es options.volume physical_track physical_sector sector) []

/-- The `ProDOS` loader (`src/js/formats/po.js` lines 20-51): builds the
`Disk` record with `volume: volume || 254` and one nibblized track per
physical track 0..34. -/
def ProDOS (es : Option Nat → Nat → Nat → List Nat → List Nat)
    (options : DiskOptions) : Disk :=
  { format := "nib"
    name := options.name
    volume := jsOr options.volume 254
    tracks := (List.range 35).map (buildTrack es options)
    readOnly := options.readOnly
    trackMap := none
    rawTracks := none }

/-- Loader options for a raw ProDOS-ordered byte image. -/
def rawOptions (name : String) (vol : Option Nat) (ro : Bool) (raw : List Nat) : DiskOptions :=
  { data := none, rawData := some raw, name := name, volume := vol, readOnly := ro }

/-- A probe standing in for `explodeSector16`: it returns a one-byte
marker recording the volume argument it was called with (`999` marks a
JavaScript `undefined`). -/
def esProbe : Option Nat → Nat → Nat → List Nat → List Nat :=
  fun v _ _ _ =>
    match v with
    | none => [999]
    | some n => [n]

/-- Loader options with no volume supplied by the caller. -/
def noVolumeOptions : DiskOptions :=
  { data := none, rawData := some [], name := "test", volume := none, readOnly := false }

/-- Modelled from the spec: the recognized disk extensions
(`DISK_FORMATS` of `src/js/types`, not among the sources); the spec:
"ext ∈ {dsk,do,po,nib,2mg,woz}". -/
def DISK_FORMATS : List String := ["2mg", "dsk", "do", "nib", "po", "woz"]

/-- Where a loaded image's bytes are sent. -/
inductive DiskRoute where
  | smartPortRoute
  | diskIIRoute
  | rejectedRoute
deriving DecidableEq, Repr

/-- The routing branch shared verbatim by `doLoadLocalDisk`
(`src/js/ui/apple2.ts` lines 351-364) and `doLoadHTTP` (lines 415-426):
images of at least `800 * 1024` bytes go to `_smartPort.setBinary`;
smaller ones go to `_disk2.setBinary` only when the extension is a
recognized disk format (the `&&` short-circuits), and are rejected
otherwise. -/
def routeDisk (byteLength : Nat) (ext : String) : DiskRoute :=
  if byteLength ≥ 800 * 1024 then DiskRoute.smartPortRoute
  else if ext ∈ DISK_FORMATS then DiskRoute.diskIIRoute
  else DiskRoute.rejectedRoute

/-- A concrete emulator state for witnesses and counterexamples. -/
def mkA (rt ra : Option Nat) (m : Nat) : Apple2 :=
  { paused := false
    runTimer := rt
    runAnimationFrame := ra
    cpu := ⟨⟨0, 0, 0, 0, 0xfd, 0, 0⟩⟩
    mmuLatches := m
    ioLatches := 0
    ramBanks := []
    diskDrives := 0
    multiScreen := false
    stats := ⟨0, 0⟩ }

/-- Accumulating a track by repeated appending (as the source's loop
does) yields the concatenation, in order, of the per-sector streams. -/
theorem foldl_append_eq (f : Nat → List Nat) :
    ∀ (l acc : List Nat),
      l.foldl (fun tr s => tr ++ f s) acc = acc ++ l.foldr (fun s r => f s ++ r) []
  | [], acc => by simp
  | a :: l, acc => by
    simp only [List.foldl_cons, List.foldr_cons]
    rw [foldl_append_eq f l (acc ++ f a), List.append_assoc]

/-- Indexing into a mapped range. -/
theorem getD_map_range (f : Nat → List Nat) (n t : Nat) (h : t < n) :
    ((List.range n).map f).getD t [] = f t := by
  rw [List.getD_eq_getElem?_getD]
  simp [List.getElem?_map, List.getElem?_range, h]

/-- The sector loop, specialized to a raw byte image, is the in-order
concatenation of the nibblized sector streams. -/
theorem buildTrack_rawData (es : Option Nat → Nat → Nat → List Nat → List Nat)
    (options : DiskOptions) (raw : List Nat) (h : options.rawData = some raw) (t : Nat) :
    buildTrack es options t =
      (List.range 16).foldr (fun s r =>
        es options.volume t s ((raw.drop ((16 * t + PO.getD s 0) * 256)).take 256) ++ r) [] := by
  unfold buildTrack
  rw [h]
  rw [foldl_append_eq (fun s =>
    es options.volume t s ((raw.drop ((16 * t + PO.getD s 0) * 256)).take 256)) (List.range 16) []]
  simp

/-- Every 256-byte slice the loader takes out of a full 143,360-byte
image really has 256 bytes. -/
theorem slice_len (raw : List Nat) (h : raw.length = 143360) (t s : Nat)
    (ht : t < 35) (hs : s < 16) :
    ((raw.drop ((16 * t + PO.getD s 0) * 256)).take 256).length = 256 := by
  have hp : ∀ s' < 16, PO.getD s' 0 ≤ 15 := by decide
  have hps := hp s hs
  simp only [List.length_take, List.length_drop, h]
  omega

/-- Each tick preserves `renderedFrames ≤ frames`, hence so does any
sequence of ticks. -/
theorem runTicks_le (ms : Bool) (envs : List TickEnv) :
    ∀ (last : Nat) (st : Stats), st.renderedFrames ≤ st.frames →
      (runTicks ms envs last st).2.renderedFrames ≤ (runTicks ms envs last st).2.frames := by
  induction envs with
  | nil => intro last st h; exact h
  | cons e rest ih =>
    intro last st h
    refine ih _ _ ?_
    unfold runFn
    dsimp only
    split <;> split <;> omega

/-- Claim C1, amended: `Apple2.getState()` returns a structure containing
only the CPU snapshot (registers and cycle counter); the snapshot is
independent of the MMU latches, I/O latches, RAM banks and disk state,
which are not captured. -/
theorem c1_getState_cpu_only (a b : Apple2) (h : a.cpu = b.cpu) :
    Apple2.getState a = Apple2.getState b ∧
    (Apple2.getState a).cpu = a.cpu.getState := by
  constructor
  · simp [Apple2.getState, h]
  · rfl

/-- Claim C1, counterexample to the claim as stated: two emulator states
that differ in the MMU latch vector (and agree on the CPU) produce
identical `getState()` snapshots, so the snapshot does not contain the
MMU latch vector — nor the I/O latches, RAM banks or disk state, which
`getState` likewise never reads. -/
theorem c1_counterexample :
    (mkA none none 0).mmuLatches ≠ (mkA none none 1).mmuLatches ∧
    Apple2.getState (mkA none none 0) = Apple2.getState (mkA none none 1) := by
  decide

/-- Claim C1, witness for the amended theorem at a concrete input. -/
theorem c1_getState_cpu_only_witness :
    (mkA none none 2).cpu = (mkA none none 3).cpu ∧
    (Apple2.getState (mkA none none 2) = Apple2.getState (mkA none none 3) ∧
     (Apple2.getState (mkA none none 2)).cpu = (mkA none none 2).cpu.getState) :=
  ⟨rfl, c1_getState_cpu_only (mkA none none 2) (mkA none none 3) rfl⟩

/-- Claim C2: restoring the snapshot just taken leaves the emulator state
identical, and a subsequent `getState()` returns the same snapshot. -/
theorem c2_setState_getState_roundtrip (a : Apple2) :
    Apple2.setState a (Apple2.getState a) = a ∧
    Apple2.getState (Apple2.setState a (Apple2.getState a)) = Apple2.getState a :=
  ⟨rfl, rfl⟩

/-- Claim C3: on every tick the cycle budget handed to `cpu.stepCycles`
is `min(elapsed_ms * kHz, kHz * interval)` with `interval = 30`, so it
never exceeds `kHz * 30`. -/
theorem c3_step_budget_min (ms : Bool) (env : TickEnv) (last : Nat) (st : Stats) :
    (runFn ms env last st).budget =
      min ((env.now - last) * env.kHz) (env.kHz * interval) ∧
    (runFn ms env last st).budget ≤ env.kHz * 30 := by
  unfold runFn interval
  dsimp only
  constructor <;> split <;> omega

/-- Claim C4: when annunciator 0 is set the tick blits the auxiliary
screens (`io.blit`, preceded by `vm.blit` when `multiScreen`), otherwise
it blits the main screen (`vm.blit`); and `renderedFrames` grows by one
exactly when the consulted blit (`io.blit` under annunciator 0,
`vm.blit` otherwise) reported a changed pixel. -/
theorem c4_render_branch (ms : Bool) (env : TickEnv) (last : Nat) (st : Stats) :
    (runFn ms env last st).blits =
      (if env.ann0 then
        (if ms then [BlitCall.vmBlitCall, BlitCall.ioBlitCall]
         else [BlitCall.ioBlitCall])
       else [BlitCall.vmBlitCall]) ∧
    (runFn ms env last st).stats.renderedFrames =
      st.renderedFrames + (if (if env.ann0 then env.ioBlit else env.vmBlit) then 1 else 0) := by
  unfold runFn
  dsimp only
  refine ⟨rfl, ?_⟩
  rcases env with ⟨now, kHz, ann0, iob, vmb⟩
  rcases ann0 <;> rcases iob <;> rcases vmb <;> simp

/-- Claim C5: every tick increments `frames` by exactly 1 and
`renderedFrames` by at most 1 (never decreasing either), and over any
run from the initial statistics `{frames := 0, renderedFrames := 0}`,
`renderedFrames` never exceeds `frames`. -/
theorem c5_stats_monotone :
    (∀ (ms : Bool) (env : TickEnv) (last : Nat) (st : Stats),
      (runFn ms env last st).stats.frames = st.frames + 1 ∧
      st.renderedFrames ≤ (runFn ms env last st).stats.renderedFrames ∧
      (runFn ms env last st).stats.renderedFrames ≤ st.renderedFrames + 1) ∧
    (∀ (ms : Bool) (envs : List TickEnv) (last : Nat),
      (runTicks ms envs last ⟨0, 0⟩).2.renderedFrames ≤
        (runTicks ms envs last ⟨0, 0⟩).2.frames) := by
  constructor
  · intro ms env last st
    unfold runFn
    dsimp only
    refine ⟨rfl, ?_, ?_⟩ <;> split <;> split <;> omega
  · intro ms envs last
    exact runTicks_le ms envs last ⟨0, 0⟩ (Nat.le_refl 0)

/-- Claim C6: for a ProDOS-ordered 16-sector raw image (35 tracks x 16
sectors x 256 bytes), the loader produces exactly 35 nibblized tracks,
and track `t` is the concatenation, over physical sectors 0..15 in
order, of `explodeSector16` applied to the 256-byte logical sector at
offset `(16 * t + PO[physical_sector]) * 256` of the raw data (each
such slice really holding 256 bytes). -/
theorem c6_prodos_nibblize (es : Option Nat → Nat → Nat → List Nat → List Nat)
    (name : String) (vol : Option Nat) (ro : Bool) (raw : List Nat)
    (h : raw.length = 143360) :
    (ProDOS es (rawOptions name vol ro raw)).tracks.length = 35 ∧
    (∀ t, t < 35 →
      (ProDOS es (rawOptions name vol ro raw)).tracks.getD t [] =
        (List.range 16).foldr (fun s r =>
          es vol t s ((raw.drop ((16 * t + PO.getD s 0) * 256)).take 256) ++ r) []) ∧
    (∀ t s, t < 35 → s < 16 →
      ((raw.drop ((16 * t + PO.getD s 0) * 256)).take 256).length = 256) := by
  refine ⟨by simp [ProDOS], ?_, ?_⟩
  · intro t ht
    have htr : (ProDOS es (rawOptions name vol ro raw)).tracks =
        (List.range 35).map (buildTrack es (rawOptions name vol ro raw)) := rfl
    rw [htr, getD_map_range _ 35 t ht,
      buildTrack_rawData es (rawOptions name vol ro raw) raw rfl t]
    rfl
  · intro t s ht hs
    exact slice_len raw h t s ht hs

/-- Claim C6, witness at a concrete all-zero 143,360-byte image, with
`explodeSector16` instantiated by the identity on the sector bytes. -/
theorem c6_prodos_nibblize_witness :
    (List.replicate 143360 (0 : Nat)).length = 143360 ∧
    (ProDOS (fun _ _ _ b => b) (rawOptions "w" none false (List.replicate 143360 0))).tracks.length = 35 ∧
    (ProDOS (fun _ _ _ b => b) (rawOptions "w" none false (List.replicate 143360 0))).tracks.getD 0 [] =
      (List.range 16).foldr (fun s r =>
        (((List.replicate 143360 (0 : Nat)).drop ((16 * 0 + PO.getD s 0) * 256)).take 256) ++ r) [] ∧
    (((List.replicate 143360 (0 : Nat)).drop ((16 * 0 + PO.getD 0 0) * 256)).take 256).length = 256 := by
  have h : (List.replicate 143360 (0 : Nat)).length = 143360 := List.length_replicate 143360 0
  obtain ⟨h1, h2, h3⟩ :=
    c6_prodos_nibblize (fun _ _ _ b => b) "w" none false (List.replicate 143360 0) h
  exact ⟨h, h1, h2 0 (by decide), h3 0 0 (by decide) (by decide)⟩

/-- Claim C7, evaluation at the failing input: with no volume supplied,
the loader sets the disk's `volume` field to the default 254, yet the
volume argument it hands to `explodeSector16` for every sector of every
track is the raw undefined option (marker 999), not 254 — the call site
reads `volume`, not `volume || 254`. -/
theorem c7_volume_divergence :
    (ProDOS esProbe noVolumeOptions).volume = 254 ∧
    (ProDOS esProbe noVolumeOptions).tracks.getD 0 [] = List.replicate 16 999 ∧
    (ProDOS esProbe noVolumeOptions).tracks.getD 0 [] ≠ List.replicate 16 254 := by
  refine ⟨rfl, by decide, by decide⟩

/-- Claim C8: a locally or HTTP-loaded image is routed to
`SmartPort.setBinary` exactly when it holds at least `800 * 1024` bytes;
otherwise it goes to `DiskII.setBinary` exactly when its extension is a
recognized disk format. -/
theorem c8_disk_routing (len : Nat) (ext : String) :
    (routeDisk len ext = DiskRoute.smartPortRoute ↔ 800 * 1024 ≤ len) ∧
    (routeDisk len ext = DiskRoute.diskIIRoute ↔
      (len < 800 * 1024 ∧ ext ∈ DISK_FORMATS)) := by
  unfold routeDisk
  split_ifs with h1 h2 <;> refine ⟨?_, ?_⟩ <;> simp_all

/-- Membership in the pending-tick list after `stop()`: a tick survives
exactly when it was pending before and is not a truthy handle that
`stop()` cancelled. -/
theorem stop_mem (a : Apple2) (pending : List Nat) (h : Nat) :
    h ∈ (Apple2.stop a pending).2 ↔
      (h ∈ pending ∧
       (jsTruthy a.runTimer = true → a.runTimer.getD 0 ≠ h) ∧
       (jsTruthy a.runAnimationFrame = true → a.runAnimationFrame.getD 0 ≠ h)) := by
  unfold Apple2.stop cancelId
  by_cases h1 : jsTruthy a.runTimer = true <;>
    by_cases h2 : jsTruthy a.runAnimationFrame = true <;>
    simp [h1, h2, List.mem_filter] <;> tauto

/-- Claim C9: `stop()` leaves both scheduling handles null, removes any
handle it cancels from the host's pending-tick list without ever adding
one, empties the pending list whenever every pending tick belongs to the
emulator's current (well-formed) handles — so no further tick runs until
`run()` is called again — and is a no-op on emulator and schedule when
the emulator is already stopped. -/
theorem c9_stop_cancels (a : Apple2) (pending : List Nat) :
    (Apple2.stop a pending).1.runTimer = none ∧
    (Apple2.stop a pending).1.runAnimationFrame = none ∧
    (∀ h, h ∈ (Apple2.stop a pending).2 → h ∈ pending) ∧
    (∀ h, a.runTimer = some h → h ≠ 0 → h ∉ (Apple2.stop a pending).2) ∧
    (∀ h, a.runAnimationFrame = some h → h ≠ 0 → h ∉ (Apple2.stop a pending).2) ∧
    ((∀ h ∈ pending, h ≠ 0 ∧ (a.runTimer = some h ∨ a.runAnimationFrame = some h)) →
      (Apple2.stop a pending).2 = []) ∧
    (a.runTimer = none → a.runAnimationFrame = none →
      Apple2.stop a pending = (a, pending)) := by
  refine ⟨rfl, rfl, ?_, ?_, ?_, ?_, ?_⟩
  · intro h hm
    exact ((stop_mem a pending h).mp hm).1
  · intro h hsome hne hm
    obtain ⟨-, hc, -⟩ := (stop_mem a pending h).mp hm
    exact hc (by simp [jsTruthy, hsome, hne]) (by simp [hsome])
  · intro h hsome hne hm
    obtain ⟨-, -, hc⟩ := (stop_mem a pending h).mp hm
    exact hc (by simp [jsTruthy, hsome, hne]) (by simp [hsome])
  · intro hall
    rw [List.eq_nil_iff_forall_not_mem]
    intro h hm
    obtain ⟨hp, hc1, hc2⟩ := (stop_mem a pending h).mp hm
    obtain ⟨hne, hcase | hcase⟩ := hall h hp
    · exact hc1 (by simp [jsTruthy, hcase, hne]) (by simp [hcase])
    · exact hc2 (by simp [jsTruthy, hcase, hne]) (by simp [hcase])
  · intro h1 h2
    obtain ⟨p, rt, ra, c, m1, i1, r1, d1, ms1, st1⟩ := a
    simp only at h1 h2
    subst h1
    subst h2
    rfl

/-- Claim C9, witness at a concrete input: a running emulator whose
timer handle 5 is the only pending tick. -/
theorem c9_stop_cancels_witness :
    (mkA (some 5) none 0).runTimer = some 5 ∧ (5 : Nat) ≠ 0 ∧
    5 ∉ (Apple2.stop (mkA (some 5) none 0) [5]).2 ∧
    (Apple2.stop (mkA (some 5) none 0) [5]).2 = [] := by
  have hc := c9_stop_cancels (mkA (some 5) none 0) [5]
  exact ⟨rfl, by decide, hc.2.2.2.1 5 rfl (by decide),
    hc.2.2.2.2.2.1 (by decide)⟩

/-- Claim C10: calling `run()` while already running changes nothing and
schedules no second tick source; and whenever the handles are browser
handles (absent or nonzero) with at most one present, `run()` returns
with exactly one of `runTimer`, `runAnimationFrame` non-null, both still
browser handles. -/
theorem c10_run_single_source (a : Apple2) (env : HostEnv) (pending : List Nat)
    (hrt : goodHandle a.runTimer = true)
    (hra : goodHandle a.runAnimationFrame = true)
    (hone : a.runTimer = none ∨ a.runAnimationFrame = none)
    (hfresh : env.freshId ≠ 0) :
    ((jsTruthy a.runTimer || jsTruthy a.runAnimationFrame) = true →
      Apple2.run a env pending = (a, pending)) ∧
    ((Apple2.run a env pending).1.runTimer = none ↔
      ¬((Apple2.run a env pending).1.runAnimationFrame = none)) ∧
    goodHandle (Apple2.run a env pending).1.runTimer = true ∧
    goodHandle (Apple2.run a env pending).1.runAnimationFrame = true := by
  unfold Apple2.run
  rcases hrtv : a.runTimer with _ | n <;> rcases hrav : a.runAnimationFrame with _ | m
  · simp only [hrtv, hrav, jsTruthy, Bool.or_self]
    rcases hraf : env.hasRAF <;> simp_all [goodHandle]
  · have hm : m ≠ 0 := by
      rw [hrav] at hra
      simpa [goodHandle] using hra
    simp_all [jsTruthy, goodHandle]
  · have hn : n ≠ 0 := by
      rw [hrtv] at hrt
      simpa [goodHandle] using hrt
    simp_all [jsTruthy, goodHandle]
  · rcases hone with hone | hone <;> simp_all

/-- Claim C10, witness at a concrete input: a stopped emulator, a host
with `requestAnimationFrame` returning handle 7. -/
theorem c10_run_single_source_witness :
    goodHandle (mkA none none 0).runTimer = true ∧
    goodHandle (mkA none none 0).runAnimationFrame = true ∧
    ((mkA none none 0).runTimer = none ∨ (mkA none none 0).runAnimationFrame = none) ∧
    (7 : Nat) ≠ 0 ∧
    ((Apple2.run (mkA none none 0) ⟨true, 7⟩ []).1.runTimer = none ↔
      ¬((Apple2.run (mkA none none 0) ⟨true, 7⟩ []).1.runAnimationFrame = none)) := by
  have hc := c10_run_single_source (mkA none none 0) ⟨true, 7⟩ []
    (by decide) (by decide) (Or.inl rfl) (by decide)
  exact ⟨by decide, by decide, Or.inl rfl, by decide, hc.2.1⟩

end Apple2JS
